import Mathlib

/-!
Verification of the clinical-agents orchestration core.

This file shallowly embeds the two agent modules of the repository —
the NurseBot conversation graph (`src/agents/nursebot.py`) and the
Nurse/Doctor triage workflow (`src/agents/triageagent.py`) — together
with the spec-described ESI extractor, and proves or refutes the spec's
claims about them.

The language-model inference capability is modelled as an oracle: a
function supplied as an explicit parameter.  A conversation turn or a
workflow step is a pure function of the current state and the oracle's
response, exactly mirroring the Python node functions.
-/

namespace NurseBot

/-- Message roles, mirroring the `("system"|"user", text)` tuples and
`AIMessage` objects stored in `SymptomState.messages`. -/
inductive Role where
  | system
  | user
  | assistant
  deriving DecidableEq, Repr

/-- One entry of the conversation history. -/
structure Message where
  role : Role
  content : String
  deriving DecidableEq, Repr

/-- One structured tool call attached to an assistant response:
`call["name"]` and the `call["args"]` mapping (modelled as an
association list; lookup finds the first binding, as a dict would). -/
structure ToolCall where
  name : String
  args : List (String × String)
  deriving DecidableEq, Repr

/-- The oracle's answer for one chatbot turn: the `response.content`
text plus the `response.tool_calls` list. -/
structure AssistantResponse where
  content : String
  tool_calls : List ToolCall
  deriving DecidableEq, Repr

/-- The `SymptomState` TypedDict of `nursebot.py`. -/
structure SymptomState where
  messages : List Message
  notes : List String
  finished : Bool
  deriving DecidableEq, Repr

/-- Python's `str.strip()`: drop leading and trailing whitespace
(modelled on the underlying character list so that it computes by
structural recursion). -/
def pyStrip (s : String) : String :=
  ⟨((s.data.dropWhile Char.isWhitespace).reverse.dropWhile Char.isWhitespace).reverse⟩

/-- Python's `str.lower()` (ASCII case folding suffices for the fixed
keywords involved). -/
def pyLower (s : String) : String := ⟨s.data.map Char.toLower⟩

/-- The exit keyword set `{"q", "quit", "exit", "thank you"}`. -/
def exitKeywords : List String := ["q", "quit", "exit", "thank you"]

/-- `user_input.strip().lower() in {"q", "quit", "exit", "thank you"}`:
the guard of the early-return branch of `human_node`. -/
def isExitInput (u : String) : Bool := exitKeywords.contains (pyLower (pyStrip u))

/-- `human_node`: on an exit keyword, return the state with
`finished = True` (messages untouched); otherwise append the stripped
user input as a user message.  (`input().strip()` strips once; the
same stripped text is tested against the keywords and recorded.) -/
def human_node (state : SymptomState) (user_input : String) : SymptomState :=
  if isExitInput user_input then
    { state with finished := true }
  else
    { state with messages := state.messages ++ [{ role := Role.user, content := pyStrip user_input }] }

def WELCOME_MSG : String :=
  "Welcome to the MedMacs Hospital. Type `q` to quit. How may I help you today?"

/-- The body of the `for call in response.tool_calls` loop of
`chatbot_node`: when `call["name"] == "take_note"` and
`"text" in call["args"]`, append `call["args"]["text"]` to the notes and
set the finished flag. -/
def noteStep (acc : List String × Bool) (call : ToolCall) : List String × Bool :=
  match call.args.lookup "text" with
  | some t => if call.name == "take_note" then (acc.1 ++ [t], true) else acc
  | none => acc

/-- `chatbot_node`: if the history is empty the response is the fixed
welcome `AIMessage` (no model call, no tool calls); otherwise the model
is invoked and `resp` is its response.  The response's tool calls are
folded over the notes/finished pair, and the response is appended to
the history. -/
def chatbot_node (state : SymptomState) (resp : AssistantResponse) : SymptomState :=
  let response :=
    if state.messages.isEmpty then { content := WELCOME_MSG, tool_calls := [] } else resp
  let nf := response.tool_calls.foldl noteStep (state.notes, state.finished)
  { messages := state.messages ++ [{ role := Role.assistant, content := response.content }],
    notes := nf.1,
    finished := nf.2 }

/-- One full controller turn as wired in the compiled graph: the
`human` node runs, then the unconditional `human → chatbot` edge runs
the `chatbot` node (there is no conditional edge out of `human`). -/
def advance (state : SymptomState) (user_input : String) (resp : AssistantResponse) :
    SymptomState :=
  chatbot_node (human_node state user_input) resp

/-- The texts of exactly those tool calls the loop appends: calls named
`take_note` whose args contain a `"text"` key. -/
def noteTexts (calls : List ToolCall) : List String :=
  calls.filterMap fun c => if c.name == "take_note" then c.args.lookup "text" else none

/-- Whether some call is a `take_note` whose args contain a `"text"`
key — the exact condition under which the loop sets `finished = True`. -/
def hasTakeNoteText (calls : List ToolCall) : Bool :=
  calls.any fun c => c.name == "take_note" && (c.args.lookup "text").isSome

/-- The spec's stronger condition (used only to state claims about the
spec): some `take_note` call whose `"text"` argument is non-empty. -/
def hasNonEmptyTakeNote (calls : List ToolCall) : Bool :=
  calls.any fun c => c.name == "take_note" &&
    (match c.args.lookup "text" with
     | some t => !(t == "")
     | none => false)

theorem foldl_noteStep_eq (calls : List ToolCall) (ns : List String) (f : Bool) :
    calls.foldl noteStep (ns, f) = (ns ++ noteTexts calls, f || hasTakeNoteText calls) := by
  induction calls generalizing ns f with
  | nil => simp [noteTexts, hasTakeNoteText]
  | cons c rest ih =>
      simp only [List.foldl_cons, noteStep, noteTexts, List.filterMap_cons,
        hasTakeNoteText, List.any_cons]
      cases hl : c.args.lookup "text" with
      | none =>
          by_cases hn : c.name = "take_note" <;>
            have hn' : (c.name == "take_note") = decide (c.name = "take_note") := rfl <;>
            simp [hn, hn', hl, ih, noteTexts, hasTakeNoteText]
      | some t =>
          by_cases hn : c.name = "take_note" <;>
            have hn' : (c.name == "take_note") = decide (c.name = "take_note") := rfl <;>
            simp [hn, hn', hl, ih, noteTexts, hasTakeNoteText]

theorem chatbot_node_notes (s : SymptomState) (resp : AssistantResponse)
    (h : s.messages.isEmpty = false) :
    (chatbot_node s resp).notes = s.notes ++ noteTexts resp.tool_calls := by
  simp [chatbot_node, h, foldl_noteStep_eq]

theorem chatbot_node_finished (s : SymptomState) (resp : AssistantResponse)
    (h : s.messages.isEmpty = false) :
    (chatbot_node s resp).finished = (s.finished || hasTakeNoteText resp.tool_calls) := by
  simp [chatbot_node, h, foldl_noteStep_eq]

theorem chatbot_node_keeps_finished (s : SymptomState) (resp : AssistantResponse)
    (h : s.finished = true) : (chatbot_node s resp).finished = true := by
  by_cases he : s.messages.isEmpty
  · simp [chatbot_node, he, foldl_noteStep_eq, h]
  · simp only [Bool.not_eq_true] at he
    rw [chatbot_node_finished s resp he, h, Bool.true_or]

/-- The nodes of the compiled conversation graph; `done` stands for
`END`. -/
inductive Node where
  | chatbot
  | human
  | done
  deriving DecidableEq, Repr

/-- External stimulus consumed by one node execution: a typed user
line for the `human` node, a model response for the `chatbot` node. -/
inductive Event where
  | user (u : String)
  | model (r : AssistantResponse)
  deriving DecidableEq, Repr

/-- Small-step semantics of the compiled graph.  The result carries the
next node, the next state, and a flag that is `true` exactly when the
step performed a model invocation (`llm_with_tools.invoke` runs in
`chatbot_node` iff the history is non-empty; `human_node` never calls
the model).  Edges: `START → chatbot`, `human → chatbot`
(unconditional), `chatbot → END` if `finished` else `chatbot → human`. -/
def step : Node → SymptomState → Event → Option ((Node × SymptomState) × Bool)
  | Node.human, s, Event.user u => some ((Node.chatbot, human_node s u), false)
  | Node.chatbot, s, Event.model r =>
      let s' := chatbot_node s r
      some ((if s'.finished then Node.done else Node.human, s'), !s.messages.isEmpty)
  | _, _, _ => none

/-- The initial graph configuration: `START` enters the `chatbot` node
with empty history, empty notes, `finished = False`. -/
def initConfig : Node × SymptomState :=
  (Node.chatbot, { messages := [], notes := [], finished := false })

end NurseBot

namespace Triage

/-- The structured inputs dict handed to the prompt template of each
step: `{"note": …, "doctor_msg": …}` for the Nurse prompt and
`{"note": …, "nurse_msg": …}` for the Doctor prompt.  The inference
oracle is a function from these inputs to the generated text, so a
run's inference calls are exactly the `PromptInputs` values it feeds
the oracle. -/
inductive PromptInputs where
  | nurse (note : String) (doctor_msg : String)
  | doctor (note : String) (nurse_msg : String)
  deriving DecidableEq, Repr

inductive TriageRole where
  | nurse
  | doctor
  deriving DecidableEq, Repr

def promptRole : PromptInputs → TriageRole
  | PromptInputs.nurse _ _ => TriageRole.nurse
  | PromptInputs.doctor _ _ => TriageRole.doctor

def promptNote : PromptInputs → String
  | PromptInputs.nurse n _ => n
  | PromptInputs.doctor n _ => n

/-- The workflow's dict state.  `app.invoke({"note": note})` supplies
only `note`; the other keys are initially absent (`none` / read through
`.get` defaults). -/
structure TriageState where
  note : String
  nurse_msg : Option String := none
  doctor_msg : Option String := none
  iteration : Nat := 0
  deriving DecidableEq, Repr

/-- `nurse_step`: prompts on the note and `state.get("doctor_msg", "")`
and stores the response as `nurse_msg`. -/
def nurse_step (llm : PromptInputs → String) (state : TriageState) : TriageState :=
  let response := llm (PromptInputs.nurse state.note (state.doctor_msg.getD ""))
  { state with nurse_msg := some response }

/-- `doctor_step`: prompts on the note and `state["nurse_msg"]` (a
strict lookup — `none` models the `KeyError` when the key is absent),
stores the response as `doctor_msg`, and increments
`state.get("iteration", 0)` by one. -/
def doctor_step (llm : PromptInputs → String) (state : TriageState) : Option TriageState :=
  match state.nurse_msg with
  | none => none
  | some nm =>
      let response := llm (PromptInputs.doctor state.note nm)
      some { state with doctor_msg := some response, iteration := state.iteration + 1 }

/-- Workflow graph nodes; `wfEnd` stands for `END`. -/
inductive WFNode where
  | nurse
  | doctor
  | wfEnd
  deriving DecidableEq, Repr

/-- The conditional edge out of `Doctor`:
`"Nurse" if state.get("iteration", 0) < 2 else END`, evaluated on the
state `doctor_step` just returned. -/
def doctorNext (s : TriageState) : WFNode :=
  if s.iteration < 2 then WFNode.nurse else WFNode.wfEnd

/-- Fuel-bounded execution of the compiled workflow graph, recording
the inputs of every inference call in order.  `none` models an aborted
run (recursion-limit exhaustion or a `KeyError` in `doctor_step`). -/
def wfRun (llm : PromptInputs → String) :
    Nat → WFNode → TriageState → List PromptInputs →
    Option (TriageState × List PromptInputs)
  | 0, _, _, _ => none
  | _ + 1, WFNode.wfEnd, s, tr => some (s, tr)
  | fuel + 1, WFNode.nurse, s, tr =>
      let p := PromptInputs.nurse s.note (s.doctor_msg.getD "")
      wfRun llm fuel WFNode.doctor { s with nurse_msg := some (llm p) } (tr ++ [p])
  | fuel + 1, WFNode.doctor, s, tr =>
      match s.nurse_msg with
      | none => none
      | some nm =>
          let p := PromptInputs.doctor s.note nm
          let s' := { s with doctor_msg := some (llm p), iteration := s.iteration + 1 }
          wfRun llm fuel (doctorNext s') s' (tr ++ [p])

/-- `app.invoke({"note": note})`: run from the entry point `Nurse` on
the initial one-key state, under LangGraph's default recursion limit
of 25 steps. -/
def app_invoke (llm : PromptInputs → String) (note : String) :
    Option (TriageState × List PromptInputs) :=
  wfRun llm 25 WFNode.nurse { note := note } []

/-- The dict returned by `run_triage_workflow`. -/
structure TriageResult where
  esi : String
  diagnosis : String
  iterations : Nat
  deriving DecidableEq, Repr

/-- `run_triage_workflow(note)`: invoke the app and project the final
state through the `.get(…, default)` reads. -/
def run_triage_workflow (llm : PromptInputs → String) (note : String) : Option TriageResult :=
  (app_invoke llm note).map fun res =>
    { esi := res.1.nurse_msg.getD "N/A",
      diagnosis := res.1.doctor_msg.getD "N/A",
      iterations := res.1.iteration }

/-- Output of the run's first inference call (first Nurse pass, with
empty previous doctor message). -/
def firstNurseOut (llm : PromptInputs → String) (note : String) : String :=
  llm (PromptInputs.nurse note "")

/-- Output of the first Doctor pass, prompted on the first Nurse
output. -/
def firstDoctorOut (llm : PromptInputs → String) (note : String) : String :=
  llm (PromptInputs.doctor note (firstNurseOut llm note))

/-- Output of the second Nurse pass, prompted on the first Doctor
output. -/
def secondNurseOut (llm : PromptInputs → String) (note : String) : String :=
  llm (PromptInputs.nurse note (firstDoctorOut llm note))

/-- Output of the second Doctor pass, prompted on the second Nurse
output. -/
def secondDoctorOut (llm : PromptInputs → String) (note : String) : String :=
  llm (PromptInputs.doctor note (secondNurseOut llm note))

/-- The four inference calls a run performs, in order. -/
def fullTrace (llm : PromptInputs → String) (note : String) : List PromptInputs :=
  [PromptInputs.nurse note "",
   PromptInputs.doctor note (firstNurseOut llm note),
   PromptInputs.nurse note (firstDoctorOut llm note),
   PromptInputs.doctor note (secondNurseOut llm note)]

/-- The state in which a run terminates. -/
def finalState (llm : PromptInputs → String) (note : String) : TriageState :=
  { note := note,
    nurse_msg := some (secondNurseOut llm note),
    doctor_msg := some (secondDoctorOut llm note),
    iteration := 2 }

theorem app_invoke_eq (llm : PromptInputs → String) (note : String) :
    app_invoke llm note = some (finalState llm note, fullTrace llm note) := rfl

end Triage

namespace ESIExtractor

/-- Numeric value of a run of decimal digit characters. -/
def digitsVal (cs : List Char) : Nat :=
  cs.foldl (fun acc c => acc * 10 + (c.toNat - 48)) 0

/-- Strip a literal character sequence from the front of the input, if
present. -/
def stripLit : List Char → List Char → Option (List Char)
  | [], cs => some cs
  | _, [] => none
  | k :: ks, c :: cs => if c == k then stripLit ks cs else none

/-- Try the keyword alternation `esi | level` at the current position
(the input has already been lower-cased). -/
def matchKeyword (cs : List Char) : Option (List Char) :=
  match stripLit ("esi".toList) cs with
  | some rest => some rest
  | none => stripLit ("level".toList) cs

/-- Try the whole pattern — keyword, optional whitespace, at least one
digit — at the current position; on success return the matched
integer. -/
def matchAt (cs : List Char) : Option Nat :=
  match matchKeyword cs with
  | none => none
  | some rest =>
      let ds := (rest.dropWhile Char.isWhitespace).takeWhile Char.isDigit
      if ds.isEmpty then none else some (digitsVal ds)

/-- Scan left to right for the first position where the pattern
matches. -/
def scanESI : List Char → Option Nat
  | [] => none
  | c :: rest =>
      match matchAt (c :: rest) with
      | some n => some n
      | none => scanESI rest

/-- Modelled from the spec: `ESIExtractor.extract` is described in the
spec but its code is not among the provided source files.  Per the
spec: search case-insensitively for "ESI" or "Level" immediately
followed by an integer (with optional separating whitespace); return
the first matched integer, or the fixed default 3 when no match is
found. -/
def extract (text : String) : Nat :=
  (scanESI (NurseBot.pyLower text).data).getD 3

end ESIExtractor

namespace NurseBot

/-- The state after the welcome turn: one assistant message, no notes,
not finished. -/
def demoWelcomeState : SymptomState :=
  { messages := [{ role := Role.assistant, content := WELCOME_MSG }],
    notes := [], finished := false }

/-- A response carrying a `take_note` call whose `"text"` argument is
the empty string. -/
def emptyTextResp : AssistantResponse :=
  { content := "noted", tool_calls := [{ name := "take_note", args := [("text", "")] }] }

/-- C1 counterexample: from the welcome state, on the non-exit input
"hello" and a response whose only tool call is `take_note` with
`arguments.text = ""`, the code sets `finished = true` although the
claimed condition (exit keyword, or take_note with NON-EMPTY text) is
false: the loop in `chatbot_node` tests only `"text" in call["args"]`,
never non-emptiness. -/
theorem advance_empty_text_cex :
    ¬ (((advance demoWelcomeState "hello" emptyTextResp).finished = true) ↔
        (isExitInput "hello" = true ∨
          hasNonEmptyTakeNote emptyTextResp.tool_calls = true)) := by
  decide

/-- C1 (amended): for a not-yet-finished state, `advance` sets
`finished = true` iff the user input is an exit keyword or the response
carries a `take_note` invocation whose args contain a `"text"` key
(empty or not); on a non-exit turn every such text is appended to the
notes. -/
theorem advance_finished_iff (s : SymptomState) (u : String) (resp : AssistantResponse)
    (h : s.finished = false) :
    ((advance s u resp).finished = true ↔
      (isExitInput u = true ∨ hasTakeNoteText resp.tool_calls = true)) ∧
    (isExitInput u = false →
      (advance s u resp).notes = s.notes ++ noteTexts resp.tool_calls) := by
  by_cases hx : isExitInput u = true
  · have h1 : advance s u resp = chatbot_node { s with finished := true } resp := by
      simp [advance, human_node, hx]
    have h2 : (advance s u resp).finished = true := by
      rw [h1]; exact chatbot_node_keeps_finished _ _ rfl
    refine ⟨by simp [h2, hx], ?_⟩
    intro hfx; rw [hfx] at hx; cases hx
  · have hx' : isExitInput u = false := by simpa using hx
    have h1 : advance s u resp =
        chatbot_node
          { s with messages := s.messages ++ [{ role := Role.user, content := pyStrip u }] }
          resp := by
      simp [advance, human_node, hx']
    have hne : ({ s with
        messages := s.messages ++ [{ role := Role.user, content := pyStrip u }] } :
        SymptomState).messages.isEmpty = false := by simp
    refine ⟨?_, fun _ => ?_⟩
    · rw [h1, chatbot_node_finished _ _ hne]
      simp [h, hx']
    · rw [h1, chatbot_node_notes _ _ hne]

/-- Witness for the amended C1 at the concrete exit input "q". -/
theorem advance_finished_iff_witness :
    (advance demoWelcomeState "q" { content := "bye", tool_calls := [] }).finished = true :=
  ((advance_finished_iff demoWelcomeState "q" { content := "bye", tool_calls := [] } rfl).1).mpr
    (Or.inl (by decide))

/-- The state reached by typing the exit keyword "q" right after the
welcome turn. -/
def quitState : SymptomState := human_node demoWelcomeState "q"

/-- C2 counterexample: `quitState` has `finished = true`, yet the next
step of the graph — the unconditional `human → chatbot` edge — executes
the chatbot node, whose model-invocation flag is `true` (the history is
non-empty, so `llm_with_tools.invoke` runs).  A model invocation
therefore occurs after `finished` became true, refuting the claimed
"never" property. -/
theorem model_call_after_exit_cex :
    quitState.finished = true ∧
    step Node.chatbot quitState (Event.model { content := "bye", tool_calls := [] }) =
      some ((Node.done, chatbot_node quitState { content := "bye", tool_calls := [] }),
        true) :=
  ⟨rfl, rfl⟩

/-- C2 (amended): an exit keyword makes the human node return the state
with `finished = true`, and the human node itself never performs a model
invocation; but the `human → chatbot` edge is unconditional, so the
chatbot node runs once more — every chatbot step from a finished state
transitions to END (hence at most that one model invocation occurs
after `finished` becomes true), and END has no outgoing steps. -/
theorem exit_finished_termination (s : SymptomState) (u : String)
    (h : isExitInput u = true) :
    human_node s u = { s with finished := true } ∧
    (∀ e out, step Node.human s e = some out → out.2 = false) ∧
    (∀ s₂ : SymptomState, ∀ r out, s₂.finished = true →
        step Node.chatbot s₂ (Event.model r) = some out → out.1.1 = Node.done) ∧
    (∀ (s₃ : SymptomState) (e : Event), step Node.done s₃ e = none) := by
  refine ⟨by simp [human_node, h], ?_, ?_, ?_⟩
  · intro e out hst
    cases e with
    | user u' =>
        simp only [step, Option.some.injEq] at hst
        simp [← hst]
    | model r => simp [step] at hst
  · intro s₂ r out h2 hst
    have hf : (chatbot_node s₂ r).finished = true := chatbot_node_keeps_finished s₂ r h2
    simp only [step, hf, if_pos, Option.some.injEq] at hst
    simp [← hst]
  · intro s₃ e
    cases e <;> rfl

/-- Witness for the amended C2 at the concrete exit input "q". -/
theorem exit_finished_termination_witness :
    human_node demoWelcomeState "q" = { demoWelcomeState with finished := true } :=
  (exit_finished_termination demoWelcomeState "q" (by decide)).1

end NurseBot

namespace Triage

/-- C3: for every inference oracle and every input note, the workflow
terminates, performs exactly 4 inference calls in the order Nurse,
Doctor, Nurse, Doctor, and `run_triage_workflow` returns
`iterations = 2` (the fixed cap). -/
theorem triage_run_four_calls (llm : PromptInputs → String) (note : String) :
    ∃ s tr, app_invoke llm note = some (s, tr) ∧
      tr.length = 4 ∧
      tr.map promptRole =
        [TriageRole.nurse, TriageRole.doctor, TriageRole.nurse, TriageRole.doctor] ∧
      ∃ r, run_triage_workflow llm note = some r ∧ r.iterations = 2 :=
  ⟨finalState llm note, fullTrace llm note, app_invoke_eq llm note, rfl, rfl,
    { esi := secondNurseOut llm note,
      diagnosis := secondDoctorOut llm note,
      iterations := 2 },
    rfl, rfl⟩

/-- C4: the run's inference calls, in order, are — first Nurse prompt
with the empty string for `doctor_msg`; first Doctor prompt with the
first Nurse pass's output; second Nurse prompt with the first Doctor
pass's output; second Doctor prompt with the second Nurse pass's
output.  Each Doctor step sees the immediately preceding Nurse output,
each later Nurse step the immediately preceding Doctor output. -/
theorem triage_prompt_dataflow (llm : PromptInputs → String) (note : String) :
    ∃ s, app_invoke llm note = some (s,
      [PromptInputs.nurse note "",
       PromptInputs.doctor note (firstNurseOut llm note),
       PromptInputs.nurse note (firstDoctorOut llm note),
       PromptInputs.doctor note (secondNurseOut llm note)]) :=
  ⟨finalState llm note, app_invoke_eq llm note⟩

/-- C5: a Nurse step leaves `iteration` unchanged, a Doctor step
increases it by exactly 1 (so no step decreases it), and the
conditional edge after a Doctor step targets the terminal END node
exactly when the resulting iteration count is ≥ 2. -/
theorem triage_iteration_invariant (llm : PromptInputs → String) (s s' : TriageState)
    (h : doctor_step llm s = some s') :
    (nurse_step llm s).iteration = s.iteration ∧
    s'.iteration = s.iteration + 1 ∧
    (doctorNext s' = WFNode.wfEnd ↔ 2 ≤ s'.iteration) := by
  refine ⟨rfl, ?_, ?_⟩
  · cases hm : s.nurse_msg with
    | none => simp [doctor_step, hm] at h
    | some nm =>
        simp only [doctor_step, hm, Option.some.injEq] at h
        simp [← h]
  · constructor
    · intro hend
      by_contra hlt2
      have hlt : s'.iteration < 2 := by omega
      simp [doctorNext, hlt] at hend
    · intro hge
      have hlt : ¬ s'.iteration < 2 := by omega
      simp [doctorNext, hlt]

/-- A concrete oracle for witnesses. -/
def witnessLLM : PromptInputs → String := fun _ => "ok"

/-- A concrete pre-Doctor state for witnesses. -/
def witnessTS : TriageState :=
  { note := "n", nurse_msg := some "x", doctor_msg := none, iteration := 0 }

/-- The state `doctor_step witnessLLM witnessTS` returns. -/
def witnessTS' : TriageState :=
  { note := "n", nurse_msg := some "x", doctor_msg := some "ok", iteration := 1 }

/-- Witness for C5 at a concrete oracle and state. -/
theorem triage_iteration_invariant_witness :
    (nurse_step witnessLLM witnessTS).iteration = witnessTS.iteration ∧
    witnessTS'.iteration = witnessTS.iteration + 1 ∧
    (doctorNext witnessTS' = WFNode.wfEnd ↔ 2 ≤ witnessTS'.iteration) :=
  triage_iteration_invariant witnessLLM witnessTS witnessTS' rfl

/-- C10: both steps leave the `note` field unchanged, and in every run
each of the four prompts is templated on exactly the note passed to the
run (as is the note of the final state). -/
theorem triage_note_frame (llm : PromptInputs → String) (s s' : TriageState) (note : String)
    (h : doctor_step llm s = some s') :
    (nurse_step llm s).note = s.note ∧
    s'.note = s.note ∧
    (∀ st tr, app_invoke llm note = some (st, tr) →
      st.note = note ∧ ∀ p ∈ tr, promptNote p = note) := by
  refine ⟨rfl, ?_, ?_⟩
  · cases hm : s.nurse_msg with
    | none => simp [doctor_step, hm] at h
    | some nm =>
        simp only [doctor_step, hm, Option.some.injEq] at h
        simp [← h]
  · intro st tr hinv
    rw [app_invoke_eq llm note] at hinv
    have h2 := Option.some.inj hinv
    injection h2 with hA hB
    subst hA; subst hB
    refine ⟨rfl, ?_⟩
    intro p hp
    simp only [fullTrace, List.mem_cons, List.not_mem_nil, or_false] at hp
    rcases hp with h1 | h1 | h1 | h1 <;> subst h1 <;> rfl

/-- Witness for C10 at a concrete oracle, state and note. -/
theorem triage_note_frame_witness :
    (nurse_step witnessLLM witnessTS).note = witnessTS.note ∧
    witnessTS'.note = witnessTS.note ∧
    (∀ st tr, app_invoke witnessLLM "n" = some (st, tr) →
      st.note = "n" ∧ ∀ p ∈ tr, promptNote p = "n") :=
  triage_note_frame witnessLLM witnessTS witnessTS' "n" rfl

end Triage

namespace NurseBot

/-- C6: when every tool call of the response either is not named
`take_note` or lacks a `"text"` argument, the chatbot transition leaves
`notes` and `finished` unchanged and only appends one message to the
history. -/
theorem chatbot_frame_no_take_note (s : SymptomState) (resp : AssistantResponse)
    (h : ∀ c ∈ resp.tool_calls, c.name ≠ "take_note" ∨ c.args.lookup "text" = none) :
    (chatbot_node s resp).notes = s.notes ∧
    (chatbot_node s resp).finished = s.finished ∧
    ∃ m, (chatbot_node s resp).messages = s.messages ++ [m] := by
  have h1 : noteTexts resp.tool_calls = [] := by
    rw [noteTexts, List.filterMap_eq_nil_iff]
    intro c hc
    rcases h c hc with hn | hl
    · have hn' : (c.name == "take_note") = false := by simpa using hn
      simp [hn']
    · by_cases hb : (c.name == "take_note") = true <;> simp [hb, hl]
  have h2 : hasTakeNoteText resp.tool_calls = false := by
    rw [hasTakeNoteText, List.any_eq_false]
    intro c hc
    rcases h c hc with hn | hl
    · have hn' : (c.name == "take_note") = false := by simpa using hn
      simp [hn']
    · simp [hl]
  by_cases he : s.messages.isEmpty
  · refine ⟨?_, ?_, ⟨_, rfl⟩⟩ <;> simp [chatbot_node, he, foldl_noteStep_eq]
  · have he' : s.messages.isEmpty = false := by simpa using he
    refine ⟨?_, ?_, ⟨_, rfl⟩⟩
    · rw [chatbot_node_notes s resp he', h1, List.append_nil]
    · rw [chatbot_node_finished s resp he', h2, Bool.or_false]

/-- A response whose calls are a foreign tool and a `take_note` without
a `"text"` argument. -/
def otherToolResp : AssistantResponse :=
  { content := "ok",
    tool_calls := [{ name := "other_tool", args := [("text", "x")] },
                   { name := "take_note", args := [("body", "y")] }] }

/-- Witness for C6 at a concrete state and response. -/
theorem chatbot_frame_no_take_note_witness :
    (chatbot_node demoWelcomeState otherToolResp).notes = demoWelcomeState.notes ∧
    (chatbot_node demoWelcomeState otherToolResp).finished = demoWelcomeState.finished ∧
    ∃ m, (chatbot_node demoWelcomeState otherToolResp).messages =
      demoWelcomeState.messages ++ [m] :=
  chatbot_frame_no_take_note demoWelcomeState otherToolResp (by decide)

/-- C8: whenever the model is actually invoked (non-empty history), the
chatbot transition appends the texts of ALL `take_note` calls carrying
a `"text"` argument, in tool-call order — the notes list can grow by
more than one entry in a single turn. -/
theorem chatbot_appends_all_notes (s : SymptomState) (resp : AssistantResponse)
    (h : s.messages.isEmpty = false) :
    (chatbot_node s resp).notes = s.notes ++ noteTexts resp.tool_calls ∧
    (chatbot_node s resp).notes.length =
      s.notes.length + (noteTexts resp.tool_calls).length := by
  refine ⟨chatbot_node_notes s resp h, ?_⟩
  rw [chatbot_node_notes s resp h, List.length_append]

/-- A response carrying two `take_note` calls with texts. -/
def twoNoteResp : AssistantResponse :=
  { content := "noted",
    tool_calls := [{ name := "take_note", args := [("text", "headache since yesterday")] },
                   { name := "take_note", args := [("text", "mild fever")] }] }

/-- Witness for C8: a response with two `take_note` calls grows the
notes by two entries. -/
theorem chatbot_appends_all_notes_witness :
    (chatbot_node demoWelcomeState twoNoteResp).notes =
      demoWelcomeState.notes ++ noteTexts twoNoteResp.tool_calls ∧
    (chatbot_node demoWelcomeState twoNoteResp).notes.length =
      demoWelcomeState.notes.length + (noteTexts twoNoteResp.tool_calls).length :=
  chatbot_appends_all_notes demoWelcomeState twoNoteResp rfl

/-- C9: a non-exit human turn appends exactly one user message (the
stripped input) and an exit turn leaves the history unchanged; the
human node never touches the notes; a chatbot turn appends exactly one
assistant message and only ever extends the notes — no transition
removes or rewrites an earlier message or note. -/
theorem history_preserved (s : SymptomState) (u : String) (resp : AssistantResponse) :
    ((human_node s u).messages =
      if isExitInput u then s.messages
      else s.messages ++ [{ role := Role.user, content := pyStrip u }]) ∧
    (human_node s u).notes = s.notes ∧
    (human_node s u).finished = (s.finished || isExitInput u) ∧
    (∃ m, m.role = Role.assistant ∧ (chatbot_node s resp).messages = s.messages ++ [m]) ∧
    (∃ t, (chatbot_node s resp).notes = s.notes ++ t) := by
  refine ⟨?_, ?_, ?_, ⟨_, rfl, rfl⟩, ?_⟩
  · by_cases hx : isExitInput u <;> simp [human_node, hx]
  · by_cases hx : isExitInput u <;> simp [human_node, hx]
  · by_cases hx : isExitInput u <;> simp [human_node, hx]
  · by_cases he : s.messages.isEmpty
    · exact ⟨[], by simp [chatbot_node, he, foldl_noteStep_eq]⟩
    · exact ⟨noteTexts resp.tool_calls,
        chatbot_node_notes s resp (by simpa using he)⟩

end NurseBot

namespace ESIExtractor

/-- C7 (spec-modelled): `extract` returns the first integer following
"ESI" or "Level" case-insensitively (optional whitespace between), and
the fixed default 3 when the scan finds no match; on the spec's
examples it returns 2, 4 and 3. -/
theorem esi_extract_spec :
    extract "ESI 2, unstable vitals" = 2 ∧
    extract "Level4 - urgent" = 4 ∧
    extract "no clear severity stated" = 3 ∧
    (∀ t, scanESI (NurseBot.pyLower t).data = none → extract t = 3) ∧
    (∀ t n, scanESI (NurseBot.pyLower t).data = some n → extract t = n) := by
  refine ⟨by decide, by decide, by decide, ?_, ?_⟩
  · intro t ht; simp [extract, ht]
  · intro t n ht; simp [extract, ht]

/-- Witness for C7's default clause at a concrete no-match text. -/
theorem esi_extract_spec_witness : extract "abc" = 3 :=
  esi_extract_spec.2.2.2.1 "abc" (by decide)

end ESIExtractor
